import Mathlib

/-!
Verification of the shader front-end in `internal/shader/shader.go`
(declaration classifier producing a Shader model or aggregated ParseError).

The generic Go parser (`go/parser`) is out of scope: compilation is modelled
from the point where a file's scope objects are available.  Go iterates
`f.Scope.Objects` (a map) in an unspecified order, so the walk is modelled as
an explicit list of objects; map invariants (distinct names, each key equal to
its object's `Name`) become hypotheses where needed.
-/

namespace Kage

/-- Modelled from the spec: the type-system companion file of `shader.go` is
not present in the sources.  Per §3 the closed enumeration is float scalar,
int scalar, boolean, vec2/vec3/vec4 and the mat2/mat3/mat4 family; `none`
stands for the zero value of the Go `typ` (the unset/unsupported type). -/
inductive Typ where
  | none
  | float
  | int
  | bool
  | vec2
  | vec3
  | vec4
  | mat2
  | mat3
  | mat4
  deriving DecidableEq

/-- Modelled from the spec: each type has a canonical name used in
diagnostics (§3: "a canonical name for diagnostics"). -/
def Typ.str : Typ → String
  | Typ.none => "none"
  | Typ.float => "float"
  | Typ.int => "int"
  | Typ.bool => "bool"
  | Typ.vec2 => "vec2"
  | Typ.vec3 => "vec3"
  | Typ.vec4 => "vec4"
  | Typ.mat2 => "mat2"
  | Typ.mat3 => "mat3"
  | Typ.mat4 => "mat4"

/-- Modelled from the spec: the numeric predicate is "true for all but
non-numeric/unsupported types — in the current scope all supported types are
numeric" (§3), so only the unset type fails it. -/
def Typ.numeric : Typ → Bool
  | Typ.none => false
  | _ => true

/-- Modelled from the spec: the type resolver recognizes only the closed
enumeration and yields a distinct "unexpected type" diagnostic otherwise
(§4.1).  A type expression is abstracted to its identifier spelling. -/
def parseType (e : String) : Except String Typ :=
  match e with
  | "float" => Except.ok Typ.float
  | "int" => Except.ok Typ.int
  | "bool" => Except.ok Typ.bool
  | "vec2" => Except.ok Typ.vec2
  | "vec3" => Except.ok Typ.vec3
  | "vec4" => Except.ok Typ.vec4
  | "mat2" => Except.ok Typ.mat2
  | "mat3" => Except.ok Typ.mat3
  | "mat4" => Except.ok Typ.mat4
  | _ => Except.error ("unexpected type: " ++ e)

/-- `varyingStructName` from shader.go. -/
def varyingStructName : String := "VertexOut"

def kageTagPre : String := "`kage:\""

def kageTagSuf : String := "\"`"

/-- `kageTagRe.FindStringSubmatch`: the regexp is
an anchored backtick-delimited `kage:"(.+)"` pattern, so a tag matches iff it
is the prefix, a non-empty newline-free middle, and the suffix; the returned
value is submatch 1 (the middle, uniquely determined by the fixed-length
prefix and suffix). -/
def kageTagMatch (tag : String) : Option String :=
  let cs := tag.toList
  let pre := kageTagPre.toList
  let suf := kageTagSuf.toList
  let mid := (cs.drop pre.length).take (cs.length - pre.length - suf.length)
  if pre.isPrefixOf cs && suf.isSuffixOf cs
      && decide (pre.length + suf.length < cs.length)
      && !(mid.contains '\n') then
    some (String.mk mid)
  else
    none

/-- `variable` from shader.go. -/
structure Variable where
  name : String
  typ : Typ
  constant : Bool
  init : String
  deriving DecidableEq

/-- `Shader` from shader.go. -/
structure Shader where
  position : Variable
  varyings : List Variable
  uniforms : List Variable
  globals : List Variable
  errs : List String
  deriving DecidableEq

/-- The zero value `&Shader{}` allocated by NewShader. -/
def emptyShader : Shader := ⟨⟨"", Typ.none, false, ""⟩, [], [], [], []⟩

/-- `ParseError` from shader.go. -/
structure ParseError where
  errs : List String
  deriving DecidableEq

/-- `ParseError.Error`: messages joined with newlines. -/
def ParseError.toMessage (p : ParseError) : String :=
  String.intercalate "\n" p.errs

/-- The kinds of `go/token` basic literals, with their `String()` spellings
used by the diagnostic in `parsePackageLevelConstant`. -/
inductive LitKind where
  | int
  | float
  | imag
  | char
  | string
  deriving DecidableEq

def LitKind.str : LitKind → String
  | LitKind.int => "INT"
  | LitKind.float => "FLOAT"
  | LitKind.imag => "IMAG"
  | LitKind.char => "CHAR"
  | LitKind.string => "STRING"

/-- `ast.BasicLit`: a literal with a kind and its textual value. -/
structure BasicLit where
  kind : LitKind
  value : String
  deriving DecidableEq

/-- An initializer expression: a basic literal, or any other expression form
(the `default` arm of the switch in `parsePackageLevelConstant`). -/
inductive Expr where
  | basicLit (lit : BasicLit)
  | otherExpr
  deriving DecidableEq

/-- `ast.Field` of the struct type: declared names, the type expression
(abstracted to its spelling), and the optional tag literal text (backticks
included, as in `f.Tag.Value`). -/
structure Field where
  names : List String
  typ : String
  tag : Option String
  deriving DecidableEq

/-- `ast.ObjKind`. -/
inductive ObjKind where
  | bad
  | pkg
  | con
  | typ
  | var
  | func
  | lbl
  deriving DecidableEq

/-- `ast.ObjKind.String()`. -/
def ObjKind.str : ObjKind → String
  | ObjKind.bad => "bad"
  | ObjKind.pkg => "package"
  | ObjKind.con => "const"
  | ObjKind.typ => "type"
  | ObjKind.var => "var"
  | ObjKind.func => "func"
  | ObjKind.lbl => "label"

/-- `ast.ValueSpec`: names, the declared type spelling, and values. -/
structure ValueSpec where
  names : List String
  typ : String
  values : List Expr
  deriving DecidableEq

/-- The declaration node attached to a scope object (`obj.Decl`): a
`TypeSpec` whose type is a struct (its field list), a `TypeSpec` whose type
is not a struct, a `ValueSpec`, or any other node. -/
inductive DeclNode where
  | typeSpecStruct (fields : List Field)
  | typeSpecOther
  | valueSpec (vs : ValueSpec)
  | otherDecl
  deriving DecidableEq

/-- `ast.Object` as consumed by the classifier: its name, kind and
declaration node. -/
structure Object where
  name : String
  kind : ObjKind
  decl : DeclNode
  deriving DecidableEq

/-- `Shader.addError`. -/
def Shader.addError (s : Shader) (str : String) : Shader :=
  { s with errs := s.errs ++ [str] }

/-- The body of the field loop in `Shader.parseVaryingStruct`, for one
field. -/
def parseVaryingField (sh : Shader) (f : Field) : Shader :=
  match f.tag with
  | some tag =>
    match kageTagMatch tag with
    | none => sh.addError ("invalid struct tag: " ++ tag)
    | some v =>
      if v ≠ "position" then
        sh.addError ("struct tag value must be position in " ++ varyingStructName ++ " but " ++ v)
      else if f.names.length ≠ 1 then
        sh.addError ("position members must be one")
      else
        match parseType f.typ with
        | Except.error e => sh.addError e
        | Except.ok t =>
          if t ≠ Typ.vec4 then
            sh.addError ("position must be vec4 but " ++ t.str)
          else
            { sh with position := ⟨f.names.headD "", t, false, ""⟩ }
  | none =>
    match parseType f.typ with
    | Except.error e => sh.addError e
    | Except.ok t =>
      if !t.numeric then
        sh.addError ("members in " ++ varyingStructName ++ " must be numeric but " ++ t.str)
      else
        { sh with varyings := sh.varyings ++ f.names.map (fun n => ⟨n, t, false, ""⟩) }

/-- `Shader.parseVaryingStruct`. -/
def parseVaryingStruct (sh : Shader) (obj : Object) : Shader :=
  if obj.kind ≠ ObjKind.typ then
    sh.addError (obj.name ++ " must be a type but " ++ obj.kind.str)
  else
    match obj.decl with
    | DeclNode.typeSpecStruct fields => fields.foldl parseVaryingField sh
    | _ => sh.addError (obj.name ++ " must be a struct but not")

/-- Whether the first character is an ASCII capital, as in the byte test
`'A' <= name[0] && name[0] <= 'Z'` (on an empty name Go would panic; the
model returns false, and theorems assume a non-empty identifier). -/
def isUpperFirst (name : String) : Bool :=
  match name.toList with
  | [] => false
  | c :: _ => decide ('A' ≤ c) && decide (c ≤ 'Z')

/-- `Shader.parsePackageLevelVariable`. -/
def parsePackageLevelVariable (s : Shader) (name : String) (obj : Object) : Shader :=
  match obj.decl with
  | DeclNode.valueSpec v =>
    match parseType v.typ with
    | Except.error e => s.addError e
    | Except.ok t =>
      let val : Variable := ⟨name, t, false, ""⟩
      if isUpperFirst name then
        { s with uniforms := s.uniforms ++ [val] }
      else
        { s with globals := s.globals ++ [val] }
  | _ => s.addError ("value spec expected")

/-- The value loop of `Shader.parsePackageLevelConstant`, over the pairs
`(vs.Names[i], vs.Values[i])`.  A literal of a kind other than INT or FLOAT
adds a diagnostic and returns (aborting the remaining values). -/
def parseConstValues (name : String) (t : Typ) : Shader → List (String × Expr) → Shader
  | s, [] => s
  | s, (n, v) :: rest =>
    if n ≠ name then
      parseConstValues name t s rest
    else
      match v with
      | Expr.basicLit lit =>
        if lit.kind ≠ LitKind.int ∧ lit.kind ≠ LitKind.float then
          s.addError ("literal must be int or float but " ++ lit.kind.str)
        else
          parseConstValues name t
            { s with globals := s.globals ++ [⟨name, t, true, lit.value⟩] } rest
      | Expr.otherExpr =>
        parseConstValues name t
          { s with globals := s.globals ++ [⟨name, t, true, ""⟩] } rest

/-- `Shader.parsePackageLevelConstant`. -/
def parsePackageLevelConstant (s : Shader) (name : String) (obj : Object) : Shader :=
  match obj.decl with
  | DeclNode.valueSpec vs =>
    match parseType vs.typ with
    | Except.error e => s.addError e
    | Except.ok t => parseConstValues name t s (vs.names.zip vs.values)
  | _ => s.addError ("value spec expected")

/-- The body of the object loop in `Shader.parse`, for one scope object
(the map key equals the object's name, an `ast.Scope` invariant). -/
def parseObject (s : Shader) (obj : Object) : Shader :=
  if obj.name = varyingStructName then
    parseVaryingStruct s obj
  else
    match obj.kind with
    | ObjKind.con => parsePackageLevelConstant s obj.name obj
    | ObjKind.var => parsePackageLevelVariable s obj.name obj
    | _ => s

/-- `Shader.parse`, over the scope objects in the order the map range
produced them. -/
def Shader.parse (s : Shader) (objs : List Object) : Shader :=
  objs.foldl parseObject s

def nameLe (a b : Variable) : Bool := decide (a.name ≤ b.name)

/-- One `sort.Slice` call of NewShader: sort by name ascending. -/
def sortByName (l : List Variable) : List Variable :=
  l.mergeSort nameLe

/-- `NewShader` after the generic-parser stage (a syntax error from
`parser.ParseFile` aborts before this point and is out of scope). -/
def NewShader (objs : List Object) : Except ParseError Shader :=
  let s := Shader.parse emptyShader objs
  if s.errs ≠ [] then
    Except.error ⟨s.errs⟩
  else
    Except.ok
      { s with
        varyings := sortByName s.varyings
        uniforms := sortByName s.uniforms
        globals := sortByName s.globals }

/-! Per-field and per-object contribution functions.  They restate each
branch of the classifier as a pure function of the declaration alone, and the
decomposition lemmas below prove that the stateful pass appends exactly these
contributions. -/

/-- Diagnostics contributed by one field of the varying struct. -/
def fieldErrs (f : Field) : List String :=
  match f.tag with
  | some tag =>
    match kageTagMatch tag with
    | none => ["invalid struct tag: " ++ tag]
    | some v =>
      if v ≠ "position" then
        ["struct tag value must be position in " ++ varyingStructName ++ " but " ++ v]
      else if f.names.length ≠ 1 then
        ["position members must be one"]
      else
        match parseType f.typ with
        | Except.error e => [e]
        | Except.ok t =>
          if t ≠ Typ.vec4 then ["position must be vec4 but " ++ t.str] else []
  | none =>
    match parseType f.typ with
    | Except.error e => [e]
    | Except.ok t =>
      if !t.numeric then
        ["members in " ++ varyingStructName ++ " must be numeric but " ++ t.str]
      else []

/-- The position variable recorded by one field, when it passes all checks. -/
def fieldPos (f : Field) : Option Variable :=
  match f.tag with
  | some tag =>
    match kageTagMatch tag with
    | none => none
    | some v =>
      if v ≠ "position" then none
      else if f.names.length ≠ 1 then none
      else
        match parseType f.typ with
        | Except.error _ => none
        | Except.ok t =>
          if t ≠ Typ.vec4 then none else some ⟨f.names.headD "", t, false, ""⟩
  | none => none

/-- The varyings contributed by one field. -/
def fieldVars (f : Field) : List Variable :=
  match f.tag with
  | some _ => []
  | none =>
    match parseType f.typ with
    | Except.error _ => []
    | Except.ok t =>
      if !t.numeric then [] else f.names.map (fun n => ⟨n, t, false, ""⟩)

/-- The globals contributed by the value loop of a package-level constant. -/
def constGlobals (name : String) (t : Typ) : List (String × Expr) → List Variable
  | [] => []
  | (n, v) :: rest =>
    if n ≠ name then
      constGlobals name t rest
    else
      match v with
      | Expr.basicLit lit =>
        if lit.kind ≠ LitKind.int ∧ lit.kind ≠ LitKind.float then []
        else ⟨name, t, true, lit.value⟩ :: constGlobals name t rest
      | Expr.otherExpr => ⟨name, t, true, ""⟩ :: constGlobals name t rest

/-- The diagnostics contributed by the value loop of a package-level
constant. -/
def constErrs (name : String) : List (String × Expr) → List String
  | [] => []
  | (n, v) :: rest =>
    if n ≠ name then
      constErrs name rest
    else
      match v with
      | Expr.basicLit lit =>
        if lit.kind ≠ LitKind.int ∧ lit.kind ≠ LitKind.float then
          ["literal must be int or float but " ++ lit.kind.str]
        else constErrs name rest
      | Expr.otherExpr => constErrs name rest

/-- Diagnostics contributed by one scope object. -/
def objErrs (o : Object) : List String :=
  if o.name = varyingStructName then
    if o.kind ≠ ObjKind.typ then
      [o.name ++ " must be a type but " ++ o.kind.str]
    else
      match o.decl with
      | DeclNode.typeSpecStruct fields => fields.flatMap fieldErrs
      | _ => [o.name ++ " must be a struct but not"]
  else
    match o.kind with
    | ObjKind.con =>
      match o.decl with
      | DeclNode.valueSpec vs =>
        match parseType vs.typ with
        | Except.error e => [e]
        | Except.ok _ => constErrs o.name (vs.names.zip vs.values)
      | _ => ["value spec expected"]
    | ObjKind.var =>
      match o.decl with
      | DeclNode.valueSpec vs =>
        match parseType vs.typ with
        | Except.error e => [e]
        | Except.ok _ => []
      | _ => ["value spec expected"]
    | _ => []

/-- The position candidates contributed by one scope object, in field order
(the last one recorded wins). -/
def objPosCands (o : Object) : List Variable :=
  if o.name = varyingStructName then
    if o.kind ≠ ObjKind.typ then []
    else
      match o.decl with
      | DeclNode.typeSpecStruct fields => fields.flatMap (fun f => (fieldPos f).toList)
      | _ => []
  else []

/-- The varyings contributed by one scope object. -/
def objVaryings (o : Object) : List Variable :=
  if o.name = varyingStructName then
    if o.kind ≠ ObjKind.typ then []
    else
      match o.decl with
      | DeclNode.typeSpecStruct fields => fields.flatMap fieldVars
      | _ => []
  else []

/-- The uniforms contributed by one scope object. -/
def objUniforms (o : Object) : List Variable :=
  if o.name = varyingStructName then []
  else
    match o.kind with
    | ObjKind.var =>
      match o.decl with
      | DeclNode.valueSpec vs =>
        match parseType vs.typ with
        | Except.error _ => []
        | Except.ok t => if isUpperFirst o.name then [⟨o.name, t, false, ""⟩] else []
      | _ => []
    | _ => []

/-- The globals contributed by one scope object. -/
def objGlobals (o : Object) : List Variable :=
  if o.name = varyingStructName then []
  else
    match o.kind with
    | ObjKind.con =>
      match o.decl with
      | DeclNode.valueSpec vs =>
        match parseType vs.typ with
        | Except.error _ => []
        | Except.ok t => constGlobals o.name t (vs.names.zip vs.values)
      | _ => []
    | ObjKind.var =>
      match o.decl with
      | DeclNode.valueSpec vs =>
        match parseType vs.typ with
        | Except.error _ => []
        | Except.ok t => if isUpperFirst o.name then [] else [⟨o.name, t, false, ""⟩]
      | _ => []
    | _ => []

/-- `Shader.Dump`. -/
def Shader.Dump (s : Shader) : String :=
  let lines :=
    ("var " ++ s.position.name ++ " varying " ++ s.position.typ.str ++ " // position")
    :: (s.varyings.map (fun v => "var " ++ v.name ++ " varying " ++ v.typ.str)
      ++ s.uniforms.map (fun u => "var " ++ u.name ++ " uniform " ++ u.typ.str)
      ++ s.globals.map (fun g =>
          (if g.constant then "const" else "var") ++ " " ++ g.name ++ " " ++ g.typ.str
            ++ (if g.init ≠ "" then " = " ++ g.init else "")))
  String.intercalate "\n" lines ++ "\n"

/-- The Dump format as the specification describes it, amended to match the
code: one newline-terminated line per variable, concatenated in the fixed
group order position, varyings, uniforms, globals; the position line ends
with the " // position" comment, and a global's " = initializer" part
appears only when the initializer is non-empty. -/
def dumpSpec (s : Shader) : String :=
  String.join
    ((("var " ++ s.position.name ++ " varying " ++ s.position.typ.str ++ " // position")
      :: (s.varyings.map (fun v => "var " ++ v.name ++ " varying " ++ v.typ.str)
        ++ s.uniforms.map (fun u => "var " ++ u.name ++ " uniform " ++ u.typ.str)
        ++ s.globals.map (fun g =>
            (if g.constant then "const" else "var") ++ " " ++ g.name ++ " " ++ g.typ.str
              ++ (if g.init ≠ "" then " = " ++ g.init else "")))).map
      (fun line => line ++ "\n"))

/-- Whether a declaration's value-spec names are duplicate-free; the Go
parser guarantees this for package-level declarations (redeclaration in the
file scope is reported as a parse error before classification runs). -/
def declNamesNodup (o : Object) : Bool :=
  match o.decl with
  | DeclNode.valueSpec vs => decide vs.names.Nodup
  | _ => true

/-- An end-to-end scenario's vertex-out struct object: a tagged vec4
`Position` field and an untagged vec2 `Texcoord` field. -/
def c2VertexOut : Object :=
  ⟨"VertexOut", ObjKind.typ, DeclNode.typeSpecStruct
    [⟨["Position"], "vec4", some "`kage:\"position\"`"⟩, ⟨["Texcoord"], "vec2", none⟩]⟩

/-- An end-to-end scenario's uniform declaration `var Foo vec2`. -/
def c2Foo : Object := ⟨"Foo", ObjKind.var, DeclNode.valueSpec ⟨["Foo"], "vec2", []⟩⟩

/-- An end-to-end scenario's global declaration `var bar float`. -/
def c2Bar : Object := ⟨"bar", ObjKind.var, DeclNode.valueSpec ⟨["bar"], "float", []⟩⟩

/-- The Shader model the end-to-end scenario compiles to. -/
def c2Model : Shader :=
  ⟨⟨"Position", Typ.vec4, false, ""⟩, [⟨"Texcoord", Typ.vec2, false, ""⟩],
    [⟨"Foo", Typ.vec2, false, ""⟩], [⟨"bar", Typ.float, false, ""⟩], []⟩

/-! Decomposition lemmas: the classifier pass appends exactly the
per-declaration contributions, and position is last-candidate-wins. -/

theorem parseVaryingField_eq (sh : Shader) (f : Field) :
    parseVaryingField sh f =
      { position := (fieldPos f).getD sh.position
        varyings := sh.varyings ++ fieldVars f
        uniforms := sh.uniforms
        globals := sh.globals
        errs := sh.errs ++ fieldErrs f } := by
  cases htag : f.tag with
  | none =>
    cases hp : parseType f.typ with
    | error e =>
      simp [parseVaryingField, fieldPos, fieldVars, fieldErrs, htag, hp, Shader.addError]
    | ok t =>
      cases hb : t.numeric <;>
        simp [parseVaryingField, fieldPos, fieldVars, fieldErrs, htag, hp, hb, Shader.addError]
  | some tag =>
    cases hm : kageTagMatch tag with
    | none =>
      simp [parseVaryingField, fieldPos, fieldVars, fieldErrs, htag, hm, Shader.addError]
    | some v =>
      by_cases hv : v = "position"
      · by_cases hl : f.names.length = 1
        · cases hp : parseType f.typ with
          | error e =>
            simp [parseVaryingField, fieldPos, fieldVars, fieldErrs, htag, hm, hv, hl,
              hp, Shader.addError]
          | ok t =>
            by_cases ht : t = Typ.vec4 <;>
              simp [parseVaryingField, fieldPos, fieldVars, fieldErrs, htag, hm, hv, hl,
                hp, ht, Shader.addError]
        · simp [parseVaryingField, fieldPos, fieldVars, fieldErrs, htag, hm, hv, hl,
            Shader.addError]
      · simp [parseVaryingField, fieldPos, fieldVars, fieldErrs, htag, hm, hv, Shader.addError]

theorem getLastD_append {α : Type} (l₁ l₂ : List α) (a : α) :
    (l₁ ++ l₂).getLastD a = l₂.getLastD (l₁.getLastD a) := by
  induction l₁ generalizing a with
  | nil => rfl
  | cons b l₁ ih => rw [List.cons_append, List.getLastD_cons, List.getLastD_cons, ih]

theorem or_getD {α : Type} (a b : Option α) (d : α) :
    (a.or b).getD d = a.getD (b.getD d) := by
  cases a <;> rfl

theorem getLast?_cons_getD {α : Type} (v : α) (l : List α) (a : α) :
    (v :: l).getLast?.getD a = l.getLast?.getD v := by
  rw [← List.getLastD_eq_getLast?, ← List.getLastD_eq_getLast?, List.getLastD_cons]

theorem parseFields_eq (fields : List Field) (sh : Shader) :
    fields.foldl parseVaryingField sh =
      { position := (fields.flatMap (fun f => (fieldPos f).toList)).getLastD sh.position
        varyings := sh.varyings ++ fields.flatMap fieldVars
        uniforms := sh.uniforms
        globals := sh.globals
        errs := sh.errs ++ fields.flatMap fieldErrs } := by
  induction fields generalizing sh with
  | nil => simp
  | cons f rest ih =>
    rw [List.foldl_cons, parseVaryingField_eq, ih]
    cases hp : fieldPos f <;> simp [hp, or_getD, getLast?_cons_getD]

theorem parseConstValues_eq (name : String) (t : Typ) (s : Shader)
    (pairs : List (String × Expr)) :
    parseConstValues name t s pairs =
      { s with
        globals := s.globals ++ constGlobals name t pairs
        errs := s.errs ++ constErrs name pairs } := by
  induction pairs generalizing s with
  | nil => simp [parseConstValues, constGlobals, constErrs]
  | cons p rest ih =>
    obtain ⟨n, v⟩ := p
    by_cases hn : n = name
    · cases v with
      | basicLit lit =>
        by_cases hk : lit.kind ≠ LitKind.int ∧ lit.kind ≠ LitKind.float
        · simp [parseConstValues, constGlobals, constErrs, hn, hk, Shader.addError]
        · simp [parseConstValues, constGlobals, constErrs, hn, hk, ih]
      | otherExpr => simp [parseConstValues, constGlobals, constErrs, hn, ih]
    · simp [parseConstValues, constGlobals, constErrs, hn, ih]

theorem parseObject_eq (s : Shader) (o : Object) :
    parseObject s o =
      { position := (objPosCands o).getLastD s.position
        varyings := s.varyings ++ objVaryings o
        uniforms := s.uniforms ++ objUniforms o
        globals := s.globals ++ objGlobals o
        errs := s.errs ++ objErrs o } := by
  by_cases hname : o.name = varyingStructName
  · by_cases hk : o.kind = ObjKind.typ
    · cases hd : o.decl with
      | typeSpecStruct fields =>
        simp [parseObject, parseVaryingStruct, objErrs, objPosCands, objVaryings,
          objUniforms, objGlobals, hname, hk, hd, parseFields_eq]
      | typeSpecOther =>
        simp [parseObject, parseVaryingStruct, objErrs, objPosCands, objVaryings,
          objUniforms, objGlobals, hname, hk, hd, Shader.addError]
      | valueSpec vs =>
        simp [parseObject, parseVaryingStruct, objErrs, objPosCands, objVaryings,
          objUniforms, objGlobals, hname, hk, hd, Shader.addError]
      | otherDecl =>
        simp [parseObject, parseVaryingStruct, objErrs, objPosCands, objVaryings,
          objUniforms, objGlobals, hname, hk, hd, Shader.addError]
    · simp [parseObject, parseVaryingStruct, objErrs, objPosCands, objVaryings,
        objUniforms, objGlobals, hname, hk, Shader.addError]
  · cases hk : o.kind with
    | con =>
      cases hd : o.decl with
      | valueSpec vs =>
        cases hp : parseType vs.typ with
        | error e =>
          simp [parseObject, parsePackageLevelConstant, objErrs, objPosCands, objVaryings,
            objUniforms, objGlobals, hname, hk, hd, hp, Shader.addError]
        | ok t =>
          simp [parseObject, parsePackageLevelConstant, objErrs, objPosCands, objVaryings,
            objUniforms, objGlobals, hname, hk, hd, hp, parseConstValues_eq]
      | typeSpecStruct fields =>
        simp [parseObject, parsePackageLevelConstant, objErrs, objPosCands, objVaryings,
          objUniforms, objGlobals, hname, hk, hd, Shader.addError]
      | typeSpecOther =>
        simp [parseObject, parsePackageLevelConstant, objErrs, objPosCands, objVaryings,
          objUniforms, objGlobals, hname, hk, hd, Shader.addError]
      | otherDecl =>
        simp [parseObject, parsePackageLevelConstant, objErrs, objPosCands, objVaryings,
          objUniforms, objGlobals, hname, hk, hd, Shader.addError]
    | var =>
      cases hd : o.decl with
      | valueSpec vs =>
        cases hp : parseType vs.typ with
        | error e =>
          simp [parseObject, parsePackageLevelVariable, objErrs, objPosCands, objVaryings,
            objUniforms, objGlobals, hname, hk, hd, hp, Shader.addError]
        | ok t =>
          cases hup : isUpperFirst o.name <;>
            simp [parseObject, parsePackageLevelVariable, objErrs, objPosCands, objVaryings,
              objUniforms, objGlobals, hname, hk, hd, hp, hup]
      | typeSpecStruct fields =>
        simp [parseObject, parsePackageLevelVariable, objErrs, objPosCands, objVaryings,
          objUniforms, objGlobals, hname, hk, hd, Shader.addError]
      | typeSpecOther =>
        simp [parseObject, parsePackageLevelVariable, objErrs, objPosCands, objVaryings,
          objUniforms, objGlobals, hname, hk, hd, Shader.addError]
      | otherDecl =>
        simp [parseObject, parsePackageLevelVariable, objErrs, objPosCands, objVaryings,
          objUniforms, objGlobals, hname, hk, hd, Shader.addError]
    | bad =>
      simp [parseObject, objErrs, objPosCands, objVaryings, objUniforms, objGlobals,
        hname, hk]
    | pkg =>
      simp [parseObject, objErrs, objPosCands, objVaryings, objUniforms, objGlobals,
        hname, hk]
    | typ =>
      simp [parseObject, objErrs, objPosCands, objVaryings, objUniforms, objGlobals,
        hname, hk]
    | func =>
      simp [parseObject, objErrs, objPosCands, objVaryings, objUniforms, objGlobals,
        hname, hk]
    | lbl =>
      simp [parseObject, objErrs, objPosCands, objVaryings, objUniforms, objGlobals,
        hname, hk]

theorem parse_eq (objs : List Object) (s : Shader) :
    Shader.parse s objs =
      { position := (objs.flatMap objPosCands).getLastD s.position
        varyings := s.varyings ++ objs.flatMap objVaryings
        uniforms := s.uniforms ++ objs.flatMap objUniforms
        globals := s.globals ++ objs.flatMap objGlobals
        errs := s.errs ++ objs.flatMap objErrs } := by
  induction objs generalizing s with
  | nil => simp [Shader.parse]
  | cons o rest ih =>
    have : Shader.parse s (o :: rest) = Shader.parse (parseObject s o) rest := rfl
    rw [this, ih, parseObject_eq]
    simp [or_getD]

/-- `NewShader` in closed form: the flat concatenation of per-declaration
diagnostics decides between the error and the fully built, sorted model. -/
theorem NewShader_eq (objs : List Object) :
    NewShader objs =
      if objs.flatMap objErrs = [] then
        Except.ok
          { position := (objs.flatMap objPosCands).getLastD ⟨"", Typ.none, false, ""⟩
            varyings := sortByName (objs.flatMap objVaryings)
            uniforms := sortByName (objs.flatMap objUniforms)
            globals := sortByName (objs.flatMap objGlobals)
            errs := objs.flatMap objErrs }
      else
        Except.error ⟨objs.flatMap objErrs⟩ := by
  simp only [NewShader, parse_eq, emptyShader]
  by_cases h : objs.flatMap objErrs = [] <;> simp [h]

/-- Claim C1: the compile entry point returns either the complete classified
model or a non-empty ParseError carrying every diagnostic collected during
the walk, in recording order (the concatenation of each declaration's
diagnostics — the walk never stops at the first one); a partially populated
model is never returned. -/
theorem NewShader_total (objs : List Object) :
    (∃ e : ParseError, NewShader objs = Except.error e ∧ e.errs ≠ [] ∧
      e.errs = objs.flatMap objErrs) ∨
    (objs.flatMap objErrs = [] ∧
      NewShader objs = Except.ok
        { position := (objs.flatMap objPosCands).getLastD ⟨"", Typ.none, false, ""⟩
          varyings := sortByName (objs.flatMap objVaryings)
          uniforms := sortByName (objs.flatMap objUniforms)
          globals := sortByName (objs.flatMap objGlobals)
          errs := [] }) := by
  rw [NewShader_eq]
  by_cases h : objs.flatMap objErrs = []
  · right
    refine ⟨h, ?_⟩
    rw [if_pos h, h]
  · left
    exact ⟨⟨objs.flatMap objErrs⟩, by rw [if_neg h], h, rfl⟩

/-- Claim C3: for a vertex-out struct field carrying a well-formed kage tag,
a tag value other than "position" records a diagnostic; a field without
exactly one declared name records "position members must be one"; a resolved
type other than vec4 records a diagnostic naming that type; the position is
recorded only when all the checks hold, and a failing field never stops the
walk over the remaining fields (last conjunct). -/
theorem parseVaryingField_position_checks (sh : Shader) (f : Field) (tag v : String)
    (htag : f.tag = some tag) (hm : kageTagMatch tag = some v) :
    (v ≠ "position" →
      parseVaryingField sh f =
        sh.addError ("struct tag value must be position in " ++ varyingStructName ++ " but " ++ v)) ∧
    (v = "position" → f.names.length ≠ 1 →
      parseVaryingField sh f = sh.addError ("position members must be one")) ∧
    (∀ t, v = "position" → f.names.length = 1 → parseType f.typ = Except.ok t →
      t ≠ Typ.vec4 →
      parseVaryingField sh f = sh.addError ("position must be vec4 but " ++ t.str)) ∧
    (v = "position" → f.names.length = 1 → parseType f.typ = Except.ok Typ.vec4 →
      parseVaryingField sh f = { sh with position := ⟨f.names.headD "", Typ.vec4, false, ""⟩ }) ∧
    ((parseVaryingField sh f).position ≠ sh.position →
      v = "position" ∧ f.names.length = 1 ∧ parseType f.typ = Except.ok Typ.vec4) ∧
    (∀ rest : List Field,
      ((f :: rest).foldl parseVaryingField sh).errs =
        (parseVaryingField sh f).errs ++ rest.flatMap fieldErrs) := by
  refine ⟨?_, ?_, ?_, ?_, ?_, ?_⟩
  · intro hv
    simp [parseVaryingField, htag, hm, hv]
  · intro hv hl
    simp [parseVaryingField, htag, hm, hv, hl]
  · intro t hv hl hp ht
    simp [parseVaryingField, htag, hm, hv, hl, hp, ht]
  · intro hv hl hp
    simp [parseVaryingField, htag, hm, hv, hl, hp]
  · intro hne
    by_cases hv : v = "position"
    · by_cases hl : f.names.length = 1
      · cases hp : parseType f.typ with
        | error e =>
          exfalso
          apply hne
          simp [parseVaryingField, htag, hm, hv, hl, hp, Shader.addError]
        | ok t =>
          by_cases ht : t = Typ.vec4
          · exact ⟨hv, hl, by rw [← ht]⟩
          · exfalso
            apply hne
            simp [parseVaryingField, htag, hm, hv, hl, hp, ht, Shader.addError]
      · exfalso
        apply hne
        simp [parseVaryingField, htag, hm, hv, hl, Shader.addError]
    · exfalso
      apply hne
      simp [parseVaryingField, htag, hm, hv, Shader.addError]
  · intro rest
    rw [List.foldl_cons, parseFields_eq]

theorem parseVaryingField_position_checks_witness :
    parseVaryingField emptyShader ⟨["P1", "P2"], "vec4", some "`kage:\"position\"`"⟩ =
      emptyShader.addError ("position members must be one") :=
  (parseVaryingField_position_checks emptyShader
    ⟨["P1", "P2"], "vec4", some "`kage:\"position\"`"⟩ "`kage:\"position\"`" "position"
    rfl (by decide)).2.1 rfl (by decide)

/-- Claim C5: a field whose tag does not match the kage tag grammar records
"invalid struct tag: ..." and contributes nothing to the varyings; an
untagged field whose resolved type fails the numeric predicate records a
diagnostic naming the struct and type, and otherwise every name bound to the
field becomes a distinct varying of the field's type. -/
theorem parseVaryingField_tag_and_varying (sh : Shader) (f : Field) :
    (∀ tag, f.tag = some tag → kageTagMatch tag = none →
      parseVaryingField sh f = sh.addError ("invalid struct tag: " ++ tag) ∧
      (parseVaryingField sh f).varyings = sh.varyings) ∧
    (f.tag = none → ∀ t, parseType f.typ = Except.ok t →
      (t.numeric = false →
        parseVaryingField sh f =
          sh.addError ("members in " ++ varyingStructName ++ " must be numeric but " ++ t.str)) ∧
      (t.numeric = true →
        parseVaryingField sh f =
          { sh with varyings := sh.varyings ++ f.names.map (fun n => ⟨n, t, false, ""⟩) })) := by
  constructor
  · intro tag htag hmm
    constructor <;> simp [parseVaryingField, htag, hmm, Shader.addError]
  · intro htag t hp
    constructor <;> intro hb <;> simp [parseVaryingField, htag, hp, hb]

theorem parseVaryingField_tag_and_varying_witness :
    (parseVaryingField emptyShader ⟨["x"], "vec2", some "`kage:position`"⟩ =
      emptyShader.addError ("invalid struct tag: `kage:position`") ∧
      (parseVaryingField emptyShader ⟨["x"], "vec2", some "`kage:position`"⟩).varyings = []) ∧
    parseVaryingField emptyShader ⟨["a", "b"], "vec2", none⟩ =
      { emptyShader with varyings := [⟨"a", Typ.vec2, false, ""⟩, ⟨"b", Typ.vec2, false, ""⟩] } := by
  constructor
  · exact (parseVaryingField_tag_and_varying emptyShader
      ⟨["x"], "vec2", some "`kage:position`"⟩).1 "`kage:position`" rfl (by decide)
  · rw [((parseVaryingField_tag_and_varying emptyShader
      ⟨["a", "b"], "vec2", none⟩).2 rfl Typ.vec2 rfl).2 rfl]
    rfl

/-- Claim C6: a package-level non-constant variable with a resolvable type
is classified solely by its first character — an ASCII capital makes it a
uniform, anything else a global — with no initializer captured; a failed
type resolution records the resolver's diagnostic and skips the variable. -/
theorem parsePackageLevelVariable_classification (s : Shader) (name : String)
    (obj : Object) (vs : ValueSpec) (hd : obj.decl = DeclNode.valueSpec vs)
    (hne : name ≠ "") :
    (∀ e, parseType vs.typ = Except.error e →
      parsePackageLevelVariable s name obj = s.addError e) ∧
    (∀ t, parseType vs.typ = Except.ok t →
      parsePackageLevelVariable s name obj =
        if isUpperFirst name then
          { s with uniforms := s.uniforms ++ [⟨name, t, false, ""⟩] }
        else
          { s with globals := s.globals ++ [⟨name, t, false, ""⟩] }) ∧
    (∀ c : Char, ∀ rest : List Char, name = ⟨c :: rest⟩ →
      (isUpperFirst name = true ↔ 'A' ≤ c ∧ c ≤ 'Z')) := by
  refine ⟨?_, ?_, ?_⟩
  · intro e hp
    simp [parsePackageLevelVariable, hd, hp]
  · intro t hp
    simp [parsePackageLevelVariable, hd, hp]
  · intro c rest hch
    subst hch
    simp [isUpperFirst, String.toList]

theorem parsePackageLevelVariable_classification_witness :
    parsePackageLevelVariable emptyShader "Foo"
        ⟨"Foo", ObjKind.var, DeclNode.valueSpec ⟨["Foo"], "vec2", []⟩⟩ =
      { emptyShader with uniforms := [⟨"Foo", Typ.vec2, false, ""⟩] } ∧
    parsePackageLevelVariable emptyShader "foo"
        ⟨"foo", ObjKind.var, DeclNode.valueSpec ⟨["foo"], "vec2", []⟩⟩ =
      { emptyShader with globals := [⟨"foo", Typ.vec2, false, ""⟩] } := by
  constructor
  · rw [(parsePackageLevelVariable_classification emptyShader "Foo"
      ⟨"Foo", ObjKind.var, DeclNode.valueSpec ⟨["Foo"], "vec2", []⟩⟩
      ⟨["Foo"], "vec2", []⟩ rfl (by decide)).2.1 Typ.vec2 rfl]
    rfl
  · rw [(parsePackageLevelVariable_classification emptyShader "foo"
      ⟨"foo", ObjKind.var, DeclNode.valueSpec ⟨["foo"], "vec2", []⟩⟩
      ⟨["foo"], "vec2", []⟩ rfl (by decide)).2.1 Typ.vec2 rfl]
    rfl

/-- Claim C7: in a package-level constant declaration with a resolved type,
each name bound to an INT or FLOAT literal is appended to the globals as a
constant whose initializer is the literal's text; any other literal kind
records "literal must be int or float but ..."; a non-literal initializer is
appended with an empty (uncaptured) initializer; and the constant walk never
touches the uniforms, whatever the identifier's case. -/
theorem parsePackageLevelConstant_globals (s : Shader) (name : String) (t : Typ)
    (n : String) (v : Expr) (rest : List (String × Expr)) (hn : n = name) :
    (∀ lit, v = Expr.basicLit lit →
      ((lit.kind = LitKind.int ∨ lit.kind = LitKind.float) →
        parseConstValues name t s ((n, v) :: rest) =
          parseConstValues name t
            { s with globals := s.globals ++ [⟨name, t, true, lit.value⟩] } rest) ∧
      (lit.kind ≠ LitKind.int → lit.kind ≠ LitKind.float →
        parseConstValues name t s ((n, v) :: rest) =
          s.addError ("literal must be int or float but " ++ lit.kind.str))) ∧
    (v = Expr.otherExpr →
      parseConstValues name t s ((n, v) :: rest) =
        parseConstValues name t { s with globals := s.globals ++ [⟨name, t, true, ""⟩] } rest) ∧
    (∀ obj : Object, (parsePackageLevelConstant s name obj).uniforms = s.uniforms) := by
  refine ⟨?_, ?_, ?_⟩
  · intro lit hv
    subst hv
    constructor
    · intro hk
      rcases hk with hk | hk <;> simp [parseConstValues, hn, hk]
    · intro h1 h2
      simp [parseConstValues, hn, h1, h2]
  · intro hv
    subst hv
    simp [parseConstValues, hn]
  · intro obj
    cases hd : obj.decl with
    | valueSpec vs =>
      cases hp : parseType vs.typ with
      | error e => simp [parsePackageLevelConstant, hd, hp, Shader.addError]
      | ok t₂ => simp [parsePackageLevelConstant, hd, hp, parseConstValues_eq]
    | typeSpecStruct fields => simp [parsePackageLevelConstant, hd, Shader.addError]
    | typeSpecOther => simp [parsePackageLevelConstant, hd, Shader.addError]
    | otherDecl => simp [parsePackageLevelConstant, hd, Shader.addError]

theorem parsePackageLevelConstant_globals_witness :
    parseConstValues "Bar" Typ.float emptyShader
        [("Bar", Expr.basicLit ⟨LitKind.float, "1.0"⟩)] =
      { emptyShader with globals := [⟨"Bar", Typ.float, true, "1.0"⟩] } ∧
    (parsePackageLevelConstant emptyShader "Bar"
        ⟨"Bar", ObjKind.con,
          DeclNode.valueSpec ⟨["Bar"], "float", [Expr.basicLit ⟨LitKind.float, "1.0"⟩]⟩⟩).uniforms = [] := by
  constructor
  · rw [((parsePackageLevelConstant_globals emptyShader "Bar" Typ.float "Bar"
      (Expr.basicLit ⟨LitKind.float, "1.0"⟩) [] rfl).1 ⟨LitKind.float, "1.0"⟩ rfl).1
      (Or.inr rfl)]
    rfl
  · exact (parsePackageLevelConstant_globals emptyShader "Bar" Typ.float "Bar"
      (Expr.basicLit ⟨LitKind.float, "1.0"⟩) [] rfl).2.2
      ⟨"Bar", ObjKind.con,
        DeclNode.valueSpec ⟨["Bar"], "float", [Expr.basicLit ⟨LitKind.float, "1.0"⟩]⟩⟩

/-- Claim C10: a vertex-out field that passes every position check silently
overwrites any previously recorded position — processing it equals the
processing of the earlier fields with only the position replaced, so the
last passing field in field order wins, no diagnostic is recorded for the
duplicate, and nothing else changes. -/
theorem parseFields_last_position_wins (sh : Shader) (fs : List Field) (f : Field)
    (tag n : String)
    (htag : f.tag = some tag) (hm : kageTagMatch tag = some "position")
    (hnames : f.names = [n]) (hp : parseType f.typ = Except.ok Typ.vec4) :
    (fs ++ [f]).foldl parseVaryingField sh =
      { fs.foldl parseVaryingField sh with position := ⟨n, Typ.vec4, false, ""⟩ } := by
  rw [List.foldl_append, List.foldl_cons, List.foldl_nil, parseVaryingField_eq]
  have hfp : fieldPos f = some ⟨n, Typ.vec4, false, ""⟩ := by
    simp [fieldPos, htag, hm, hnames, hp]
  have hfv : fieldVars f = [] := by simp [fieldVars, htag]
  have hfe : fieldErrs f = [] := by simp [fieldErrs, htag, hm, hnames, hp]
  rw [hfp, hfv, hfe]
  simp

theorem parseFields_last_position_wins_witness :
    ([⟨["P1"], "vec4", some "`kage:\"position\"`"⟩,
      ⟨["P2"], "vec4", some "`kage:\"position\"`"⟩] : List Field).foldl
        parseVaryingField emptyShader =
      { ([⟨["P1"], "vec4", some "`kage:\"position\"`"⟩] : List Field).foldl
          parseVaryingField emptyShader with position := ⟨"P2", Typ.vec4, false, ""⟩ } :=
  parseFields_last_position_wins emptyShader
    [⟨["P1"], "vec4", some "`kage:\"position\"`"⟩]
    ⟨["P2"], "vec4", some "`kage:\"position\"`"⟩
    "`kage:\"position\"`" "P2" rfl (by decide) rfl rfl

/-! Claim C4: the code never checks that a position was recorded, so a
successful compile can return the zero-valued position. -/

/-- Claim C4 counterexample: a source with no vertex-out struct (empty
declaration walk) compiles successfully, yet the model's position is the
unset zero variable, whose type is not vec4 — refuting "for every successful
compile the position is set and its type is vec4". -/
theorem NewShader_success_without_position :
    NewShader [] = Except.ok ⟨⟨"", Typ.none, false, ""⟩, [], [], [], []⟩ ∧
    Typ.none ≠ Typ.vec4 := by
  constructor
  · rw [NewShader_eq]
    simp [sortByName]
  · decide

theorem fieldPos_typ (f : Field) (v : Variable) (h : fieldPos f = some v) :
    v.typ = Typ.vec4 := by
  unfold fieldPos at h
  repeat' split at h
  all_goals first
    | exact Option.noConfusion h
    | (injection h with h2; rw [← h2]; simp_all)

theorem objPosCands_typ (o : Object) (v : Variable) (h : v ∈ objPosCands o) :
    v.typ = Typ.vec4 := by
  unfold objPosCands at h
  repeat' split at h
  all_goals first
    | exact absurd h (List.not_mem_nil v)
    | (rcases List.mem_flatMap.mp h with ⟨f, _, hmem⟩
       exact fieldPos_typ f v (by simpa using hmem))

/-- Claim C4 amended: whenever the classifier records a position its type is
vec4, but a successful compile does not guarantee that one was recorded —
the model's position is either the zero (unset) variable or a vec4
variable. -/
theorem NewShader_position_unset_or_vec4 (objs : List Object) (m : Shader)
    (h : NewShader objs = Except.ok m) :
    m.position = ⟨"", Typ.none, false, ""⟩ ∨ m.position.typ = Typ.vec4 := by
  rw [NewShader_eq] at h
  by_cases hc : objs.flatMap objErrs = []
  · rw [if_pos hc] at h
    injection h with h2
    have hpos : m.position = (objs.flatMap objPosCands).getLastD ⟨"", Typ.none, false, ""⟩ := by
      rw [← h2]
    have hmem := List.getLastD_mem_cons (objs.flatMap objPosCands) ⟨"", Typ.none, false, ""⟩
    rw [← hpos] at hmem
    rcases List.mem_cons.mp hmem with h3 | h3
    · left
      exact h3
    · right
      rcases List.mem_flatMap.mp h3 with ⟨o, _, hmo⟩
      exact objPosCands_typ o m.position hmo
  · rw [if_neg hc] at h
    exact absurd h (by simp)

theorem NewShader_position_unset_or_vec4_witness :
    (⟨⟨"", Typ.none, false, ""⟩, [], [], [], []⟩ : Shader).position =
        ⟨"", Typ.none, false, ""⟩ ∨
      (⟨⟨"", Typ.none, false, ""⟩, [], [], [], []⟩ : Shader).position.typ = Typ.vec4 :=
  NewShader_position_unset_or_vec4 [] ⟨⟨"", Typ.none, false, ""⟩, [], [], [], []⟩
    (by rw [NewShader_eq]; simp [sortByName])

/-! Claim C8: Dump's position line carries a trailing " // position" comment,
which the claimed exact line grammar omits. -/

/-- Claim C8 counterexample: for a model whose position is `Position : vec4`,
the Dump output's position line is "var Position varying vec4 // position",
not the claimed exact grammar "var Position varying vec4". -/
theorem Dump_position_line_has_comment :
    Shader.Dump ⟨⟨"Position", Typ.vec4, false, ""⟩, [], [], [], []⟩ =
      "var Position varying vec4 // position\n" ∧
    ("var Position varying vec4 // position\n" : String) ≠
      "var Position varying vec4\n" := by
  constructor
  · rfl
  · decide

theorem join_cons (a : String) (l : List String) :
    String.join (a :: l) = a ++ String.join l := by
  have key : ∀ (l : List String) (x y : String),
      l.foldl (fun r s => r ++ s) (x ++ y) = x ++ l.foldl (fun r s => r ++ s) y := by
    intro l
    induction l with
    | nil => intro x y; rfl
    | cons b l ih =>
      intro x y
      simp only [List.foldl_cons]
      rw [String.append_assoc]
      exact ih x (y ++ b)
  show (a :: l).foldl (fun r s => r ++ s) "" = a ++ l.foldl (fun r s => r ++ s) ""
  rw [List.foldl_cons]
  have h0 : ("" ++ a : String) = a ++ "" := by
    rw [String.empty_append, String.append_empty]
  rw [h0, key]

theorem intercalate_go_append (sep : String) (as : List String) (acc : String) :
    String.intercalate.go acc sep as ++ sep =
      acc ++ sep ++ String.join (as.map (fun x => x ++ sep)) := by
  induction as generalizing acc with
  | nil =>
    show acc ++ sep = acc ++ sep ++ String.join []
    rw [show String.join [] = "" from rfl, String.append_empty]
  | cons a as ih =>
    show String.intercalate.go (acc ++ sep ++ a) sep as ++ sep = _
    rw [ih, List.map_cons, join_cons]
    simp only [String.append_assoc]

theorem intercalate_newline_eq_join (a : String) (l : List String) :
    String.intercalate "\n" (a :: l) ++ "\n" =
      String.join ((a :: l).map (fun x => x ++ "\n")) := by
  show String.intercalate.go a "\n" l ++ "\n" = _
  rw [intercalate_go_append, List.map_cons, join_cons]

/-- Claim C8 amended: Dump renders exactly one newline-terminated line per
classified variable in the fixed group order (position, varyings, uniforms,
globals, each group as stored), with the amended line grammar of
`dumpSpec` — in particular the output always ends with a trailing
newline. -/
theorem Dump_eq_dumpSpec (s : Shader) : s.Dump = dumpSpec s := by
  simp only [Shader.Dump, dumpSpec]
  exact intercalate_newline_eq_join _ _

/-! Claim C9: the walk order over the scope map is unspecified in Go, and the
diagnostic sequence depends on it. -/

/-- Claim C9 counterexample: the same two declarations walked in the two
orders a Go map range may produce (both walks arise from identical source
bytes) yield ParseErrors whose message sequences are distinct — compilation
is not a deterministic function of the source bytes alone. -/
theorem NewShader_walk_order_dependent :
    ([⟨"aaa", ObjKind.var, DeclNode.valueSpec ⟨["aaa"], "texture2d", []⟩⟩,
      ⟨"bbb", ObjKind.var, DeclNode.valueSpec ⟨["bbb"], "sampler", []⟩⟩] : List Object).Perm
      [⟨"bbb", ObjKind.var, DeclNode.valueSpec ⟨["bbb"], "sampler", []⟩⟩,
       ⟨"aaa", ObjKind.var, DeclNode.valueSpec ⟨["aaa"], "texture2d", []⟩⟩] ∧
    NewShader
      [⟨"aaa", ObjKind.var, DeclNode.valueSpec ⟨["aaa"], "texture2d", []⟩⟩,
       ⟨"bbb", ObjKind.var, DeclNode.valueSpec ⟨["bbb"], "sampler", []⟩⟩] =
      Except.error ⟨["unexpected type: texture2d", "unexpected type: sampler"]⟩ ∧
    NewShader
      [⟨"bbb", ObjKind.var, DeclNode.valueSpec ⟨["bbb"], "sampler", []⟩⟩,
       ⟨"aaa", ObjKind.var, DeclNode.valueSpec ⟨["aaa"], "texture2d", []⟩⟩] =
      Except.error ⟨["unexpected type: sampler", "unexpected type: texture2d"]⟩ ∧
    (["unexpected type: texture2d", "unexpected type: sampler"] : List String) ≠
      ["unexpected type: sampler", "unexpected type: texture2d"] := by
  refine ⟨by decide, rfl, rfl, by decide⟩

/-- Claim C9 amended: compilation is a deterministic function of the source
and the declaration-walk order; across different walk orders of the same
declarations the diagnostics form the same multiset (their order may vary
with the walk order) and success does not depend on the walk order. -/
theorem NewShader_perm_errs (objs objs' : List Object) (hp : objs.Perm objs') :
    ((Shader.parse emptyShader objs).errs).Perm ((Shader.parse emptyShader objs').errs) ∧
    (∀ e e', NewShader objs = Except.error e → NewShader objs' = Except.error e' →
      e.errs.Perm e'.errs) ∧
    (NewShader objs).isOk = (NewShader objs').isOk := by
  have herr := hp.flatMap_right objErrs
  have hparse : ∀ l : List Object, (Shader.parse emptyShader l).errs = l.flatMap objErrs := by
    intro l
    rw [parse_eq]
    simp [emptyShader]
  refine ⟨?_, ?_, ?_⟩
  · rw [hparse, hparse]
    exact herr
  · intro e e' he he'
    rw [NewShader_eq] at he he'
    by_cases hc : objs.flatMap objErrs = []
    · rw [if_pos hc] at he
      exact absurd he (by simp)
    · by_cases hc' : objs'.flatMap objErrs = []
      · rw [if_pos hc'] at he'
        exact absurd he' (by simp)
      · rw [if_neg hc] at he
        rw [if_neg hc'] at he'
        injection he with h1
        injection he' with h2
        rw [← h1, ← h2]
        exact herr
  · rw [NewShader_eq, NewShader_eq]
    by_cases hc : objs.flatMap objErrs = []
    · have hc' : objs'.flatMap objErrs = [] := by
        rw [hc] at herr
        exact herr.symm.eq_nil
      rw [if_pos hc, if_pos hc']
      rfl
    · have hc' : objs'.flatMap objErrs ≠ [] := by
        intro hnil
        rw [hnil] at herr
        exact hc herr.eq_nil
      rw [if_neg hc, if_neg hc']
      rfl

theorem NewShader_perm_errs_witness :
    (["unexpected type: texture2d", "unexpected type: sampler"] : List String).Perm
      ["unexpected type: sampler", "unexpected type: texture2d"] :=
  (NewShader_perm_errs
      [⟨"aaa", ObjKind.var, DeclNode.valueSpec ⟨["aaa"], "texture2d", []⟩⟩,
       ⟨"bbb", ObjKind.var, DeclNode.valueSpec ⟨["bbb"], "sampler", []⟩⟩]
      [⟨"bbb", ObjKind.var, DeclNode.valueSpec ⟨["bbb"], "sampler", []⟩⟩,
       ⟨"aaa", ObjKind.var, DeclNode.valueSpec ⟨["aaa"], "texture2d", []⟩⟩]
      (by decide)).2.1
    ⟨["unexpected type: texture2d", "unexpected type: sampler"]⟩
    ⟨["unexpected type: sampler", "unexpected type: texture2d"]⟩
    rfl rfl

/-! Claim C2: sortedness of the classified lists and invariance of a
successful compile under re-ordering of the declaration walk. -/

theorem flatMap_eq_of_perm {α β : Type} (f : α → List β) {l l' : List α}
    (hp : l.Perm l') :
    l.countP (fun o => !(f o).isEmpty) ≤ 1 → l.flatMap f = l'.flatMap f := by
  induction hp with
  | nil => intro _; rfl
  | cons x hperm ih =>
    intro hc
    rw [List.flatMap_cons, List.flatMap_cons, ih ?_]
    rw [List.countP_cons] at hc
    omega
  | swap x y l =>
    intro hc
    rw [List.countP_cons, List.countP_cons] at hc
    simp only [List.flatMap_cons]
    by_cases hx : (f x).isEmpty
    · rw [List.isEmpty_iff.mp hx]
      simp
    · have hy : (f y).isEmpty = true := by
        by_contra hy
        simp only [hx, hy] at hc
        simp at hc
      rw [List.isEmpty_iff.mp hy]
      simp
  | trans h₁ h₂ ih₁ ih₂ =>
    intro hc
    rw [ih₁ hc, ih₂ ?_]
    rw [← h₁.countP_eq]
    exact hc

theorem countP_varyingStructName_le_one (objs : List Object)
    (hn : (objs.map Object.name).Nodup) :
    objs.countP (fun o => o.name == varyingStructName) ≤ 1 := by
  have h1 := List.nodup_iff_count_le_one.mp hn varyingStructName
  calc objs.countP (fun o => o.name == varyingStructName)
      = (objs.map Object.name).countP (fun nm => nm == varyingStructName) := by
        rw [List.countP_map]
        rfl
    _ = (objs.map Object.name).count varyingStructName := rfl
    _ ≤ 1 := h1

theorem objVaryings_eq_nil (o : Object) (h : o.name ≠ varyingStructName) :
    objVaryings o = [] := by
  simp [objVaryings, h]

theorem objPosCands_eq_nil (o : Object) (h : o.name ≠ varyingStructName) :
    objPosCands o = [] := by
  simp [objPosCands, h]

theorem countP_contrib_le_one (objs : List Object)
    (hn : (objs.map Object.name).Nodup) (f : Object → List Variable)
    (hf : ∀ o, o.name ≠ varyingStructName → f o = []) :
    objs.countP (fun o => !(f o).isEmpty) ≤ 1 := by
  refine le_trans (List.countP_mono_left ?_) (countP_varyingStructName_le_one objs hn)
  intro o _ hpo
  by_contra hq
  have hne : o.name ≠ varyingStructName := by
    simpa using hq
  rw [hf o hne] at hpo
  simp at hpo

theorem nameLe_trans : ∀ (a b c : Variable), nameLe a b → nameLe b c → nameLe a c := by
  intro a b c hab hbc
  simp only [nameLe, decide_eq_true_eq] at hab hbc ⊢
  exact le_trans hab hbc

theorem nameLe_total : ∀ (a b : Variable), nameLe a b || nameLe b a := by
  intro a b
  simp only [nameLe, Bool.or_eq_true, decide_eq_true_eq]
  exact le_total a.name b.name

theorem sortByName_sorted (l : List Variable) :
    (sortByName l).Pairwise (fun a b => a.name ≤ b.name) := by
  have h := List.sorted_mergeSort nameLe_trans nameLe_total l
  exact h.imp (fun hab => by simpa [nameLe] using hab)

theorem sortByName_eq_of_perm {l l' : List Variable} (hp : l.Perm l')
    (hn : (l.map Variable.name).Nodup) : sortByName l = sortByName l' := by
  haveI : IsAntisymm Variable (fun a b => a.name < b.name) :=
    ⟨fun a b h h' => absurd h' (lt_asymm h)⟩
  have hsorted : ∀ (k : List Variable), (k.map Variable.name).Nodup →
      (sortByName k).Pairwise (fun a b => a.name < b.name) := by
    intro k hk
    have h1 := sortByName_sorted k
    have h2 : (sortByName k).Pairwise (fun a b => a.name ≠ b.name) := by
      have hpm : ((sortByName k).map Variable.name).Perm (k.map Variable.name) :=
        (List.mergeSort_perm k nameLe).map Variable.name
      have h3 : ((sortByName k).map Variable.name).Nodup := hpm.nodup_iff.mpr hk
      have h4 : ((sortByName k).map Variable.name).Pairwise (fun a b => a ≠ b) := h3
      exact List.pairwise_map.mp h4
    exact (h1.and h2).imp (fun hab => lt_of_le_of_ne hab.1 hab.2)
  have hn' : (l'.map Variable.name).Nodup := ((hp.map Variable.name).nodup_iff).mp hn
  exact List.eq_of_perm_of_sorted
    ((List.mergeSort_perm l nameLe).trans (hp.trans (List.mergeSort_perm l' nameLe).symm))
    (hsorted l hn) (hsorted l' hn')

theorem flatMap_names_sublist (objs : List Object) (f : Object → List Variable)
    (h : ∀ o ∈ objs, ((f o).map Variable.name).Sublist [o.name]) :
    ((objs.flatMap f).map Variable.name).Sublist (objs.map Object.name) := by
  induction objs with
  | nil => simp
  | cons o rest ih =>
    rw [List.flatMap_cons, List.map_append, List.map_cons]
    have h1 := h o (List.mem_cons_self _ _)
    have h2 := ih (fun x hx => h x (List.mem_cons_of_mem _ hx))
    exact h1.append h2

theorem names_sublist_singleton (l : List Variable) (nm : String)
    (hlen : l.length ≤ 1) (hall : ∀ v ∈ l, v.name = nm) :
    (l.map Variable.name).Sublist [nm] := by
  cases l with
  | nil => simp
  | cons v rest =>
    cases rest with
    | nil =>
      rw [List.map_cons, List.map_nil, hall v (List.mem_cons_self _ _)]
    | cons w tl => simp at hlen

theorem objUniforms_names_sublist (o : Object) :
    ((objUniforms o).map Variable.name).Sublist [o.name] := by
  unfold objUniforms
  repeat' split
  all_goals simp

theorem constGlobals_name (name : String) (t : Typ) :
    ∀ pairs, ∀ v ∈ constGlobals name t pairs, v.name = name := by
  intro pairs
  induction pairs with
  | nil =>
    intro v hv
    simp [constGlobals] at hv
  | cons p rest ih =>
    obtain ⟨n, e⟩ := p
    intro v hv
    by_cases hn : n = name
    · cases e with
      | basicLit lit =>
        by_cases hk : lit.kind ≠ LitKind.int ∧ lit.kind ≠ LitKind.float
        · simp [constGlobals, hn, hk] at hv
        · simp only [constGlobals, hn, hk] at hv
          simp at hv
          rcases hv with hv | hv
          · rw [hv]
          · exact ih v hv
      | otherExpr =>
        simp only [constGlobals, hn] at hv
        simp at hv
        rcases hv with hv | hv
        · rw [hv]
        · exact ih v hv
    · simp only [constGlobals, hn] at hv
      simp [hn] at hv
      exact ih v hv

theorem constGlobals_nil_of_no_match (name : String) (t : Typ) :
    ∀ pairs, (∀ p ∈ pairs, p.1 ≠ name) → constGlobals name t pairs = [] := by
  intro pairs
  induction pairs with
  | nil => intro _; rfl
  | cons p rest ih =>
    intro h
    obtain ⟨n, e⟩ := p
    have h1 : n ≠ name := h (n, e) (List.mem_cons_self _ _)
    simp [constGlobals, h1, ih (fun q hq => h q (List.mem_cons_of_mem _ hq))]

theorem constGlobals_length_le_one (name : String) (t : Typ) :
    ∀ pairs, pairs.countP (fun p => p.1 == name) ≤ 1 →
      (constGlobals name t pairs).length ≤ 1 := by
  intro pairs
  induction pairs with
  | nil =>
    intro _
    simp [constGlobals]
  | cons p rest ih =>
    intro hc
    obtain ⟨n, e⟩ := p
    rw [List.countP_cons] at hc
    by_cases hn : n = name
    · have hpa : ((n, e).1 == name) = true := by simp [hn]
      have hzero : rest.countP (fun p => p.1 == name) = 0 := by
        simp only [] at hc
        rw [hpa, if_pos rfl] at hc
        omega
      have hrest : constGlobals name t rest = [] := by
        apply constGlobals_nil_of_no_match
        intro q hq heq
        have hpos : 0 < rest.countP (fun p => p.1 == name) :=
          List.countP_pos_iff.mpr ⟨q, hq, by simp [heq]⟩
        omega
      cases e with
      | basicLit lit =>
        by_cases hk : lit.kind ≠ LitKind.int ∧ lit.kind ≠ LitKind.float <;>
          simp [constGlobals, hn, hk, hrest]
      | otherExpr => simp [constGlobals, hn, hrest]
    · have hpa : ((n, e).1 == name) = false := by simp [hn]
      have hc' : rest.countP (fun p => p.1 == name) ≤ 1 := by
        simp only [] at hc
        rw [hpa, if_neg (by simp)] at hc
        omega
      simpa [constGlobals, hn] using ih hc'

theorem map_fst_zip_sublist {α β : Type} :
    ∀ (l₁ : List α) (l₂ : List β), ((l₁.zip l₂).map Prod.fst).Sublist l₁
  | [], _ => by simp
  | _ :: _, [] => by simp
  | a :: l₁, b :: l₂ => by
    rw [List.zip_cons_cons, List.map_cons]
    exact (map_fst_zip_sublist l₁ l₂).cons₂ a

theorem objGlobals_names_sublist (o : Object) (hv : declNamesNodup o = true) :
    ((objGlobals o).map Variable.name).Sublist [o.name] := by
  unfold objGlobals
  by_cases hname : o.name = varyingStructName
  · simp [hname]
  · rw [if_neg hname]
    cases hk : o.kind with
    | con =>
      cases hd : o.decl with
      | valueSpec vs =>
        cases hp : parseType vs.typ with
        | error e => simp [hp]
        | ok t =>
          have hnd : vs.names.Nodup := by
            simp [declNamesNodup, hd] at hv
            exact hv
          simp only [hp]
          apply names_sublist_singleton
          · apply constGlobals_length_le_one
            have hsub : ((vs.names.zip vs.values).map Prod.fst).Sublist vs.names :=
              map_fst_zip_sublist vs.names vs.values
            calc (vs.names.zip vs.values).countP (fun p => p.1 == o.name)
                = ((vs.names.zip vs.values).map Prod.fst).countP (fun nm => nm == o.name) := by
                  rw [List.countP_map]
                  rfl
              _ ≤ vs.names.countP (fun nm => nm == o.name) :=
                  List.Sublist.countP_le (fun nm => nm == o.name) hsub
              _ = vs.names.count o.name := rfl
              _ ≤ 1 := List.nodup_iff_count_le_one.mp hnd o.name
          · exact constGlobals_name o.name t (vs.names.zip vs.values)
      | typeSpecStruct fields => simp
      | typeSpecOther => simp
      | otherDecl => simp
    | var =>
      cases hd : o.decl with
      | valueSpec vs =>
        cases hp : parseType vs.typ with
        | error e => simp [hp]
        | ok t => cases hup : isUpperFirst o.name <;> simp [hp, hup]
      | typeSpecStruct fields => simp
      | typeSpecOther => simp
      | otherDecl => simp
    | bad => simp
    | pkg => simp
    | typ => simp
    | func => simp
    | lbl => simp

/-- Claim C2: after a successful classification the varyings, uniforms and
globals are each sorted by name ascending, and — given the scope-map
invariants (distinct declaration names, duplicate-free value-spec names) —
walking the same declarations in any other order yields the identical Shader
Model and hence identical Dump text. -/
theorem NewShader_order_invariant (objs objs' : List Object) (m : Shader)
    (hp : objs.Perm objs')
    (hn : (objs.map Object.name).Nodup)
    (hv : ∀ o ∈ objs, declNamesNodup o = true)
    (hok : NewShader objs = Except.ok m) :
    NewShader objs' = Except.ok m ∧
    (∀ m', NewShader objs' = Except.ok m' → Shader.Dump m' = Shader.Dump m) ∧
    m.varyings.Pairwise (fun a b => a.name ≤ b.name) ∧
    m.uniforms.Pairwise (fun a b => a.name ≤ b.name) ∧
    m.globals.Pairwise (fun a b => a.name ≤ b.name) := by
  rw [NewShader_eq] at hok
  by_cases hc : objs.flatMap objErrs = []
  · rw [if_pos hc] at hok
    have herr := hp.flatMap_right objErrs
    have hc' : objs'.flatMap objErrs = [] := by
      rw [hc] at herr
      exact herr.symm.eq_nil
    have hvar : objs.flatMap objVaryings = objs'.flatMap objVaryings :=
      flatMap_eq_of_perm objVaryings hp
        (countP_contrib_le_one objs hn objVaryings objVaryings_eq_nil)
    have hpos : objs.flatMap objPosCands = objs'.flatMap objPosCands :=
      flatMap_eq_of_perm objPosCands hp
        (countP_contrib_le_one objs hn objPosCands objPosCands_eq_nil)
    have hu : sortByName (objs.flatMap objUniforms) = sortByName (objs'.flatMap objUniforms) :=
      sortByName_eq_of_perm (hp.flatMap_right objUniforms)
        (List.Nodup.sublist
          (flatMap_names_sublist objs objUniforms (fun o _ => objUniforms_names_sublist o)) hn)
    have hg : sortByName (objs.flatMap objGlobals) = sortByName (objs'.flatMap objGlobals) :=
      sortByName_eq_of_perm (hp.flatMap_right objGlobals)
        (List.Nodup.sublist
          (flatMap_names_sublist objs objGlobals
            (fun o ho => objGlobals_names_sublist o (hv o ho))) hn)
    have hmodel : NewShader objs' = Except.ok m := by
      rw [NewShader_eq, if_pos hc', ← hok, ← hpos, ← hvar, ← hu, ← hg, hc, hc']
    refine ⟨hmodel, ?_, ?_, ?_, ?_⟩
    · intro m' hm'
      have h2 := hmodel.symm.trans hm'
      injection h2 with h3
      rw [h3]
    · injection hok with h2
      rw [← h2]
      exact sortByName_sorted _
    · injection hok with h2
      rw [← h2]
      exact sortByName_sorted _
    · injection hok with h2
      rw [← h2]
      exact sortByName_sorted _
  · rw [if_neg hc] at hok
    exact absurd hok (by simp)

theorem NewShader_order_invariant_witness :
    NewShader [c2Bar, c2Foo, c2VertexOut] = Except.ok c2Model ∧
    c2Model.varyings.Pairwise (fun a b => a.name ≤ b.name) ∧
    c2Model.uniforms.Pairwise (fun a b => a.name ≤ b.name) ∧
    c2Model.globals.Pairwise (fun a b => a.name ≤ b.name) := by
  have h := NewShader_order_invariant [c2VertexOut, c2Foo, c2Bar] [c2Bar, c2Foo, c2VertexOut]
    c2Model (by decide) (by decide) (by decide)
    (by
      rw [NewShader_eq]
      have h1 : ([c2VertexOut, c2Foo, c2Bar] : List Object).flatMap objErrs = [] := by decide
      have h2 : ([c2VertexOut, c2Foo, c2Bar] : List Object).flatMap objPosCands =
          [⟨"Position", Typ.vec4, false, ""⟩] := by decide
      have h3 : ([c2VertexOut, c2Foo, c2Bar] : List Object).flatMap objVaryings =
          [⟨"Texcoord", Typ.vec2, false, ""⟩] := by decide
      have h4 : ([c2VertexOut, c2Foo, c2Bar] : List Object).flatMap objUniforms =
          [⟨"Foo", Typ.vec2, false, ""⟩] := by decide
      have h5 : ([c2VertexOut, c2Foo, c2Bar] : List Object).flatMap objGlobals =
          [⟨"bar", Typ.float, false, ""⟩] := by decide
      rw [h1, h2, h3, h4, h5]
      simp [sortByName, c2Model])
  exact ⟨h.1, h.2.2.1, h.2.2.2.1, h.2.2.2.2⟩

end Kage
